import Mathlib

/-!
# sUP: interactive UPnP port-mapping shell (`main.go`)

A shallow embedding of `main.go`: the command loop of `main`, the mapping
handler `mapPort`, the table printers and `pmToStringMap`, together with
models of the Go library functions they call (`strings.TrimSpace`,
`strings.Trim`, `strings.Split`, `strings.HasPrefix`, `strconv.ParseInt`,
`strconv.FormatInt`).

Go strings are modelled as lists of Unicode characters.  Machine integers are
natural numbers or integers with explicit reduction modulo `2^w` at every
conversion.  Effects (client calls, output) are recorded in a trace.
-/

namespace SUP

/-! ## Go strings -/

/-- A Go string, as its sequence of characters. -/
abbrev GoString := List Char

/-- Go `unicode.IsSpace`: the Latin-1 spaces and the characters with the
Unicode White_Space property. -/
def isSpace (c : Char) : Bool :=
  let n := c.toNat
  n == 0x09 || n == 0x0A || n == 0x0B || n == 0x0C || n == 0x0D || n == 0x20 ||
  n == 0x85 || n == 0xA0 || n == 0x1680 || (0x2000 ≤ n && n ≤ 0x200A) ||
  n == 0x2028 || n == 0x2029 || n == 0x202F || n == 0x205F || n == 0x3000

/-- Removes the longest suffix whose characters all satisfy `p`. -/
def trimRightFunc (p : Char → Bool) (s : GoString) : GoString :=
  (s.reverse.dropWhile p).reverse

/-- Go `strings.TrimSpace`: leading and trailing white space removed. -/
def TrimSpace (s : GoString) : GoString :=
  trimRightFunc isSpace (s.dropWhile isSpace)

/-- Go `strings.Trim(s, cutset)`: all leading and trailing characters that
occur in `cutset` removed. -/
def Trim (s cutset : GoString) : GoString :=
  trimRightFunc (fun c => cutset.contains c) (s.dropWhile (fun c => cutset.contains c))

/-- Go `strings.Split(s, sep)` for a separator of one character, the only way
`main.go` calls it: the pieces between the occurrences of `sep`, one more than
there are occurrences. -/
def Split (s : GoString) (sep : Char) : List GoString :=
  s.splitOn sep

/-- Go `strings.HasPrefix`. -/
def HasPrefix (s pre : GoString) : Bool :=
  pre.isPrefixOf s

/-! ## `strconv` -/

/-- The two errors of `strconv`: `ErrSyntax` and `ErrRange`. -/
inductive NumErrorKind where
  | ErrSyntax
  | ErrRange
  deriving DecidableEq, Repr

/-- Go `*strconv.NumError`. -/
structure NumError where
  Func : GoString
  Num : GoString
  Err : NumErrorKind
  deriving DecidableEq, Repr

deriving instance DecidableEq for Except

/-- The value of one byte as a digit in `strconv.ParseUint`: `0..9` for the
decimal digits, `10..35` for the letters in either case, nothing otherwise. -/
def digitVal (c : Char) : Option Nat :=
  let n := c.toNat
  if 48 ≤ n ∧ n ≤ 57 then some (n - 48)
  else if 97 ≤ n ∧ n ≤ 122 then some (n - 97 + 10)
  else if 65 ≤ n ∧ n ≤ 90 then some (n - 65 + 10)
  else none

/-- The digit loop of `strconv.ParseUint` in base 10 on 64-bit words: `n` is
the value accumulated so far, `maxVal` is `2^bitSize - 1`.  Returns the kind of
error at the first offending byte. -/
def parseUintLoop (maxVal : Nat) : List Char → Nat → Except NumErrorKind Nat
  | [], n => .ok n
  | c :: cs, n =>
    match digitVal c with
    | none => .error .ErrSyntax
    | some d =>
      if d ≥ 10 then .error .ErrSyntax
      else if n ≥ (2 ^ 64 - 1) / 10 + 1 then .error .ErrRange
      else
        let n10 := (n * 10) % 2 ^ 64
        let n1 := (n10 + d) % 2 ^ 64
        if n1 < n10 ∨ n1 > maxVal then .error .ErrRange
        else parseUintLoop maxVal cs n1

/-- Go `strconv.ParseUint(s, 10, bitSize)` for `0 < bitSize ≤ 64`. -/
def ParseUint (s : GoString) (bitSize : Nat) : Except NumErrorKind Nat :=
  if s = [] then .error .ErrSyntax
  else parseUintLoop (2 ^ bitSize - 1) s 0

/-- Go `strconv.ParseInt(s, 10, bitSize)` for `0 < bitSize ≤ 64`: an optional
sign, then `ParseUint`, then the check against the signed range.  A range error
of `ParseUint` falls through to the signed range check with the value
`2^bitSize - 1`. -/
def ParseInt (s : GoString) (bitSize : Nat) : Except NumError Int :=
  let fail (k : NumErrorKind) : Except NumError Int :=
    .error { Func := "ParseInt".toList, Num := s, Err := k }
  match s with
  | [] => fail .ErrSyntax
  | c :: cs =>
    let neg := c == '-'
    let body := if c == '+' ∨ c == '-' then cs else c :: cs
    let checked (un : Nat) : Except NumError Int :=
      let cutoff := 2 ^ (bitSize - 1)
      if ¬ neg ∧ un ≥ cutoff then fail .ErrRange
      else if neg ∧ un > cutoff then fail .ErrRange
      else .ok (if neg then - (un : Int) else (un : Int))
    match ParseUint body bitSize with
    | .error .ErrSyntax => fail .ErrSyntax
    | .error .ErrRange => checked (2 ^ bitSize - 1)
    | .ok un => checked un

/-- The decimal digits of `u`, most significant first, in front of `acc`
(`fuel` bounds the number of digits). -/
def formatBits : Nat → Nat → List Char → List Char
  | 0, _, acc => acc
  | fuel + 1, u, acc =>
    if u < 10 then Char.ofNat (48 + u) :: acc
    else formatBits fuel (u / 10) (Char.ofNat (48 + u % 10) :: acc)

/-- Go `strconv.FormatInt(i, 10)`. -/
def FormatInt (i : Int) : GoString :=
  if i < 0 then '-' :: formatBits (i.natAbs + 1) i.natAbs []
  else formatBits (i.natAbs + 1) i.natAbs []

/-! ## Data model and the UPnP client -/

/-- Go `uint16(i)` for an `int64` value `i`. -/
def uint16 (i : Int) : Nat := (i % 2 ^ 16).toNat

/-- Go `uint32(i)` for an `int64` value `i`. -/
def uint32 (i : Int) : Nat := (i % 2 ^ 32).toNat

/-- The library type `sUPnP.PortMapping`, with the fields `main.go` uses.
`ExternalPort` and `InternalPort` are `uint16`, `LeaseDuration` is `uint32`. -/
structure PortMapping where
  RemoteHost : GoString := []
  ExternalPort : Nat := 0
  Protocol : GoString := []
  InternalPort : Nat := 0
  InternalClient : GoString := []
  PortMappingDescription : GoString := []
  Enabled : Bool := false
  LeaseDuration : Nat := 0
  deriving DecidableEq, Repr

/-- The library type `*sUPnP.IGD`, taken as a parameter: the five operations
`main.go` calls, each running on the device state `σ`.  The getters return a
value or an error; add and delete return an error or nothing. -/
structure IGD (σ : Type) where
  GetPortMappings : σ → Except GoString (List PortMapping) × σ
  GetExternalIP : σ → Except GoString GoString × σ
  GetInternalIP : σ → Except GoString GoString × σ
  AddPortMapping : PortMapping → σ → Option GoString × σ
  DeletePortMapping : PortMapping → σ → Option GoString × σ

/-- A `tablewriter` table under construction. -/
structure Table where
  header : List GoString := []
  rows : List (List GoString) := []
  deriving DecidableEq, Repr

/-- Go `tablewriter.NewWriter(os.Stdout)`. -/
def NewWriter : Table := {}

/-- Go `table.SetHeader`. -/
def Table.SetHeader (t : Table) (keys : List GoString) : Table :=
  { t with header := keys }

/-- Go `table.Append`: one more row, after the rows already there. -/
def Table.Append (t : Table) (row : List GoString) : Table :=
  { t with rows := t.rows ++ [row] }

/-- What the process does to the outside world, in the order it happens. -/
inductive Event where
  | GetPortMappings
  | GetExternalIP
  | GetInternalIP
  | AddPortMapping (pm : PortMapping)
  | DeletePortMapping (pm : PortMapping)
  | Render (t : Table)
  | Println (s : GoString)
  | WriteString (s : GoString)
  | WriteTree (indent : GoString)
  deriving DecidableEq, Repr

/-- The value a Go `panic` carries. -/
inductive PanicValue where
  | numError (e : NumError)
  | clientError (e : GoString)
  | indexOutOfRange (index length : Nat)
  deriving DecidableEq, Repr

/-- The state a run acts on: the device behind the client and the trace of
events so far. -/
structure World (σ : Type) where
  device : σ
  trace : List Event
  deriving DecidableEq

/-- How a piece of the program ends: normally with a value, or in a panic
that aborts the process. -/
inductive Outcome (α : Type) where
  | ok (a : α)
  | panic (v : PanicValue)
  deriving DecidableEq, Repr

/-- A piece of the program: from a world to an outcome and the world after. -/
def Prog (σ α : Type) : Type := World σ → Outcome α × World σ

/-- Sequencing: a panic stops everything after it. -/
def Prog.bind {σ α β : Type} (m : Prog σ α) (f : α → Prog σ β) : Prog σ β :=
  fun w =>
    match m w with
    | (.ok a, w1) => f a w1
    | (.panic v, w1) => (.panic v, w1)

instance {σ : Type} : Monad (Prog σ) where
  pure a := fun w => (.ok a, w)
  bind := Prog.bind

/-- Go `panic(v)`. -/
def panic {σ α : Type} (v : PanicValue) : Prog σ α := fun w => (.panic v, w)

/-- Records an event. -/
def emit {σ : Type} (e : Event) : Prog σ Unit :=
  fun w => (.ok (), { w with trace := w.trace ++ [e] })

/-- Calls a client operation: the event is recorded and the device state
advanced. -/
def call {σ α : Type} (e : Event) (op : σ → α × σ) : Prog σ α :=
  fun w =>
    let r := op w.device
    (.ok r.1, { device := r.2, trace := w.trace ++ [e] })

/-- Go `xs[i]`: a run-time panic when `i` is out of range. -/
def index {σ : Type} (xs : List GoString) (i : Nat) : Prog σ GoString :=
  match xs.get? i with
  | some x => pure x
  | none => panic (.indexOutOfRange i xs.length)

/-- The idiom `v, err := strconv.ParseInt(..); if err != nil { panic(err) }`. -/
def orPanic {σ : Type} (r : Except NumError Int) : Prog σ Int :=
  match r with
  | .ok v => pure v
  | .error e => panic (.numError e)

/-! ## `main.go` -/

/-- Go `usage`: the heading and the completer tree written to `w`. -/
def usage {σ : Type} : Prog σ Unit := do
  emit (.WriteString "commands:\n".toList)
  emit (.WriteTree "    ".toList)

/-- Go `pmToStringMap`. -/
def pmToStringMap (pm : PortMapping) : List GoString :=
  [ pm.RemoteHost,
    FormatInt (pm.ExternalPort : Int),
    pm.Protocol,
    FormatInt (pm.InternalPort : Int),
    pm.InternalClient,
    pm.PortMappingDescription,
    FormatInt (pm.LeaseDuration : Int) ]

/-- The header row of the mapping table. -/
def mappingsHeader : List GoString :=
  [ "Remote".toList, "External Port".toList, "Protocal".toList, "Internal Port".toList,
    "Internal Client".toList, "Description".toList, "Lease".toList ]

/-- Go `printMappingsTable`. -/
def printMappingsTable {σ : Type} (c : IGD σ) : Prog σ Unit := do
  let r ← call .GetPortMappings c.GetPortMappings
  match r with
  | .error err => panic (.clientError err)
  | .ok pms =>
    let table := NewWriter.SetHeader mappingsHeader
    let table := pms.foldl (fun t pm => t.Append (pmToStringMap pm)) table
    emit (.Render table)

/-- Go `printIPTable`. -/
def printIPTable {σ : Type} (c : IGD σ) : Prog σ Unit := do
  let r ← call .GetExternalIP c.GetExternalIP
  match r with
  | .error err => panic (.clientError err)
  | .ok eip =>
    let r ← call .GetInternalIP c.GetInternalIP
    match r with
    | .error err => panic (.clientError err)
    | .ok iip =>
      let table := NewWriter.SetHeader ["Type".toList, "IP Address".toList]
      let table := table.Append ["External".toList, eip]
      let table := table.Append ["Internal".toList, iip]
      emit (.Render table)

/-- Go `mapPort`.  The results of `AddPortMapping` and `DeletePortMapping`
are discarded, as in the source. -/
def mapPort {σ : Type} (line : GoString) (c : IGD σ) : Prog σ Unit := do
  let str := Split (TrimSpace line) ' '
  let str0 ← index str 0
  if str0 = "add".toList then
    let str := str.drop 1
    let s0 ← index str 0
    let remote := Trim s0 "\"".toList
    let proto ← index str 2
    let client ← index str 4
    let s1 ← index str 1
    let eport ← orPanic (ParseInt s1 16)
    let s3 ← index str 3
    let iport ← orPanic (ParseInt s3 16)
    let s5 ← index str 5
    let description := Trim s5 "\"".toList
    let s6 ← index str 6
    let lease ← orPanic (ParseInt s6 16)
    let pm : PortMapping :=
      { RemoteHost := remote
        ExternalPort := uint16 eport
        Protocol := proto
        InternalPort := uint16 iport
        InternalClient := client
        PortMappingDescription := description
        Enabled := true
        LeaseDuration := uint32 lease }
    let _ ← call (.AddPortMapping pm) (c.AddPortMapping pm)
    printMappingsTable c
  else
    let str := str.drop 1
    let s0 ← index str 0
    let remote := Trim s0 "\"".toList
    let proto ← index str 2
    let s1 ← index str 1
    let eport ← orPanic (ParseInt s1 16)
    let pm : PortMapping :=
      { RemoteHost := remote
        ExternalPort := uint16 eport
        Protocol := proto }
    let _ ← call (.DeletePortMapping pm) (c.DeletePortMapping pm)
    printMappingsTable c

/-- The error `l.Readline()` returns with a line. -/
inductive ReadErr where
  | none
  | ErrInterrupt
  | EOF
  | other
  deriving DecidableEq, Repr

/-- One result of `l.Readline()`. -/
structure ReadResult where
  line : GoString
  err : ReadErr := .none
  deriving DecidableEq, Repr

/-- The `for` loop of `main` over the results `l.Readline()` will return; an
exhausted input reads as `io.EOF`.  The value is the part of the input that
was never read. -/
def mainLoop {σ : Type} (c : IGD σ) : List ReadResult → Prog σ (List ReadResult)
  | [] => pure []
  | r :: rest =>
    if r.err = .ErrInterrupt then
      if r.line.length = 0 then pure rest else mainLoop c rest
    else if r.err = .EOF then pure rest
    else
      let line := TrimSpace r.line
      if line = "exit".toList then pure rest
      else if line = "list".toList then do
        printMappingsTable c
        mainLoop c rest
      else if line = "ip".toList then do
        printIPTable c
        mainLoop c rest
      else if line = "help".toList then do
        usage
        mainLoop c rest
      else if HasPrefix line "map".toList then do
        mapPort (line.drop 3) c
        mainLoop c rest
      else do
        emit (.Println "Command not recognised".toList)
        mainLoop c rest

/-- Go `main`: nothing at all when discovery fails, a panic when `readline`
cannot be set up, the command loop otherwise. -/
def main {σ : Type} (discover : Except GoString (IGD σ)) (newEx : Option GoString)
    (input : List ReadResult) : Prog σ Unit :=
  match discover with
  | .error _ => pure ()
  | .ok client =>
    match newEx with
    | some err => panic (.clientError err)
    | none => do
      let _ ← mainLoop client input
      pure ()

/-! ## Numerals, as the specification reads them -/

/-- A decimal digit. -/
def isDigit (c : Char) : Bool := decide (48 ≤ c.toNat) && decide (c.toNat ≤ 57)

/-- The value of a digit string read after the value `n`. -/
def decimalFold (n : Nat) (ds : List Char) : Nat :=
  ds.foldl (fun n c => 10 * n + (c.toNat - 48)) n

/-- The value of a string of decimal digits. -/
def decimalValue (ds : List Char) : Nat := decimalFold 0 ds

/-- The value of an optionally signed base-10 numeral: an optional `+` or `-`
and then at least one decimal digit; nothing for any other string. -/
def signedNumeral (s : GoString) : Option Int :=
  match s with
  | [] => none
  | c :: cs =>
    if c = '+' then
      if cs ≠ [] ∧ cs.all isDigit then some (decimalValue cs : Int) else none
    else if c = '-' then
      if cs ≠ [] ∧ cs.all isDigit then some (- (decimalValue cs : Int)) else none
    else if (c :: cs).all isDigit then some (decimalValue (c :: cs) : Int) else none

/-! ## Auxiliary definitions for the statements -/

/-- The mapping `mapPort` builds for `add` from the tokens and the parsed numbers. -/
def addMapping (r p cl d : GoString) (ve vi vl : Int) : PortMapping :=
  { RemoteHost := Trim r "\"".toList
    ExternalPort := uint16 ve
    Protocol := p
    InternalPort := uint16 vi
    InternalClient := cl
    PortMappingDescription := Trim d "\"".toList
    Enabled := true
    LeaseDuration := uint32 vl }

/-- The mapping `mapPort` builds for a removal from the tokens and the parsed
port. -/
def removeMapping (r p : GoString) (ve : Int) : PortMapping :=
  { RemoteHost := Trim r "\"".toList
    ExternalPort := uint16 ve
    Protocol := p }

/-- The mappings the client's add operation was called with, in order. -/
def addCalls : List Event → List PortMapping
  | [] => []
  | .AddPortMapping pm :: es => pm :: addCalls es
  | _ :: es => addCalls es

/-- The mappings the client's delete operation was called with, in order. -/
def deleteCalls : List Event → List PortMapping
  | [] => []
  | .DeletePortMapping pm :: es => pm :: deleteCalls es
  | _ :: es => deleteCalls es

/-- The lines written with `fmt.Println`, in order. -/
def printed : List Event → List GoString
  | [] => []
  | .Println s :: es => s :: printed es
  | _ :: es => printed es

/-- A client on a device without state that holds one mapping; every
operation succeeds. -/
def homeClient : IGD Unit where
  GetPortMappings := fun s =>
    (.ok [{ ExternalPort := 2222, Protocol := "TCP".toList, InternalPort := 22,
            InternalClient := "192.168.1.10".toList, PortMappingDescription := "ssh".toList,
            Enabled := true }], s)
  GetExternalIP := fun s => (.ok "203.0.113.7".toList, s)
  GetInternalIP := fun s => (.ok "192.168.1.2".toList, s)
  AddPortMapping := fun _ s => (none, s)
  DeletePortMapping := fun _ s => (none, s)

/-- A client on a device without state that refuses every add and delete; the
getters succeed. -/
def refusingClient : IGD Unit where
  GetPortMappings := fun s => (.ok [], s)
  GetExternalIP := fun s => (.ok "203.0.113.7".toList, s)
  GetInternalIP := fun s => (.ok "192.168.1.2".toList, s)
  AddPortMapping := fun _ s => (some "ConflictInMappingEntry".toList, s)
  DeletePortMapping := fun _ s => (some "NoSuchEntryInArray".toList, s)

/-- A string of decimal digits, not empty, whose value is `n`. -/
def isNumeralOf (ds : GoString) (n : Nat) : Prop :=
  ds ≠ [] ∧ (∀ c ∈ ds, isDigit c = true) ∧ decimalValue ds = n

/-- The `add` command whose seven arguments are the cells of `pmToStringMap pm`,
joined with single spaces. -/
def addCommandOf (pm : PortMapping) : GoString :=
  "add".toList ++ ' ' :: " ".toList.intercalate (pmToStringMap pm)

/-- The interactive command grammar as the specification lists it (`main.go`
holds its words as completion entries): `help`, `list`, `ip`, `exit`,
`map add` with seven arguments and `map remove` with three. -/
def inGrammar (line : GoString) : Bool :=
  decide (line = "help".toList) || decide (line = "list".toList) ||
  decide (line = "ip".toList) || decide (line = "exit".toList) ||
  (match Split line ' ' with
   | [m, a, _, _, _, _, _, _, _] => decide (m = "map".toList) && decide (a = "add".toList)
   | [m, a, _, _, _] => decide (m = "map".toList) && decide (a = "remove".toList)
   | _ => false)

/-! ## Theorems -/

/-! ### Lemmas -/

theorem decimalFold_cons (n : Nat) (c : Char) (cs : List Char) :
    decimalFold n (c :: cs) = decimalFold (10 * n + (c.toNat - 48)) cs := rfl

theorem le_decimalFold (cs : List Char) : ∀ n, n ≤ decimalFold n cs := by
  induction cs with
  | nil => intro n; exact Nat.le_refl n
  | cons c cs ih =>
    intro n
    rw [decimalFold_cons]
    have := ih (10 * n + (c.toNat - 48))
    omega

theorem digitVal_of_isDigit {c : Char} (h : isDigit c = true) :
    digitVal c = some (c.toNat - 48) ∧ c.toNat - 48 < 10 := by
  simp only [isDigit, Bool.and_eq_true, decide_eq_true_eq] at h
  refine ⟨?_, by omega⟩
  simp [digitVal, h.1, h.2]

theorem isDigit_of_digitVal {c : Char} {d : Nat} (h : digitVal c = some d) (hd : d < 10) :
    isDigit c = true ∧ d = c.toNat - 48 := by
  simp only [digitVal] at h
  simp only [isDigit, Bool.and_eq_true, decide_eq_true_eq]
  split_ifs at h with h1 h2 h3
  · simp only [Option.some.injEq] at h
    exact ⟨h1, h.symm⟩
  · simp only [Option.some.injEq] at h; omega
  · simp only [Option.some.injEq] at h; omega

theorem parseUintLoop_ok (M : Nat) (hM : M * 10 + 9 < 2 ^ 64) (cs : List Char) :
    ∀ n, (∀ c ∈ cs, isDigit c = true) → decimalFold n cs ≤ M →
      parseUintLoop M cs n = .ok (decimalFold n cs) := by
  induction cs with
  | nil => intro n _ _; rfl
  | cons c cs ih =>
    intro n hall hle
    obtain ⟨hdv, hlt⟩ := digitVal_of_isDigit (hall c (List.mem_cons_self _ _))
    rw [decimalFold_cons] at hle ⊢
    have h1 := le_decimalFold cs (10 * n + (c.toNat - 48))
    have hn : ¬ n ≥ (2 ^ 64 - 1) / 10 + 1 := by norm_num at hM ⊢; omega
    have e10 : n * 10 % 2 ^ 64 = n * 10 := Nat.mod_eq_of_lt (by norm_num at hM ⊢; omega)
    have e1 : (n * 10 + (c.toNat - 48)) % 2 ^ 64 = n * 10 + (c.toNat - 48) :=
      Nat.mod_eq_of_lt (by norm_num at hM ⊢; omega)
    have hmul : n * 10 + (c.toNat - 48) = 10 * n + (c.toNat - 48) := by omega
    have hbad : ¬ (n * 10 + (c.toNat - 48) < n * 10 ∨ n * 10 + (c.toNat - 48) > M) := by omega
    simp only [parseUintLoop, hdv, ge_iff_le, Nat.not_le.mpr hlt, if_false, e10, e1]
    rw [if_neg hn, if_neg hbad, hmul]
    exact ih _ (fun x hx => hall x (List.mem_cons_of_mem _ hx)) hle

theorem parseUintLoop_ok_inv (M : Nat) (hM : M * 10 + 9 < 2 ^ 64) (cs : List Char) :
    ∀ n v, n ≤ M → parseUintLoop M cs n = .ok v →
      (∀ c ∈ cs, isDigit c = true) ∧ v = decimalFold n cs ∧ v ≤ M := by
  induction cs with
  | nil =>
    intro n v hn h
    simp only [parseUintLoop, Except.ok.injEq] at h
    subst h
    exact ⟨by simp, rfl, hn⟩
  | cons c cs ih =>
    intro n v hn h
    unfold parseUintLoop at h
    cases hdv : digitVal c with
    | none => simp [hdv] at h
    | some d =>
      simp only [hdv] at h
      by_cases hd : d ≥ 10
      · simp [hd] at h
      · rw [if_neg hd] at h
        have hd10 : d < 10 := by omega
        obtain ⟨hdig, hdeq⟩ := isDigit_of_digitVal hdv hd10
        have hcut : ¬ n ≥ (2 ^ 64 - 1) / 10 + 1 := by norm_num at hM ⊢; omega
        rw [if_neg hcut] at h
        have e10 : n * 10 % 2 ^ 64 = n * 10 := Nat.mod_eq_of_lt (by norm_num at hM ⊢; omega)
        have e1 : (n * 10 + d) % 2 ^ 64 = n * 10 + d :=
          Nat.mod_eq_of_lt (by norm_num at hM ⊢; omega)
        simp only [e10, e1] at h
        by_cases hbad : n * 10 + d < n * 10 ∨ n * 10 + d > M
        · rw [if_pos hbad] at h
          cases h
        · rw [if_neg hbad] at h
          obtain ⟨hall, hv, hvM⟩ := ih (n * 10 + d) v (by omega) h
          refine ⟨?_, ?_, hvM⟩
          · intro x hx
            rcases List.mem_cons.mp hx with rfl | hx
            · exact hdig
            · exact hall x hx
          · rw [decimalFold_cons, hv, hdeq]
            congr 1
            omega

theorem ParseUint_16_ok_iff (s : GoString) (v : Nat) :
    ParseUint s 16 = .ok v ↔
      s ≠ [] ∧ (∀ c ∈ s, isDigit c = true) ∧ v = decimalValue s ∧ v ≤ 65535 := by
  unfold ParseUint
  by_cases hs : s = []
  · simp [hs]
  · rw [if_neg hs]
    have hM : (2 ^ 16 - 1) * 10 + 9 < 2 ^ 64 := by norm_num
    constructor
    · intro h
      obtain ⟨h1, h2, h3⟩ := parseUintLoop_ok_inv _ hM s 0 v (Nat.zero_le _) h
      exact ⟨hs, h1, h2, by simpa using h3⟩
    · rintro ⟨_, h1, h2, h3⟩
      rw [h2]
      exact parseUintLoop_ok _ hM s 0 h1 (by rw [h2] at h3; simpa [decimalValue] using h3)

theorem ParseInt_16_cons_ok_iff (c : Char) (cs : List Char) (v : Int) :
    ParseInt (c :: cs) 16 = .ok v ↔
      ∃ un, ParseUint (if c = '+' ∨ c = '-' then cs else c :: cs) 16 = .ok un ∧
        if c = '-' then un ≤ 32768 ∧ v = - (un : Int) else un < 32768 ∧ v = (un : Int) := by
  simp only [ParseInt, beq_iff_eq]
  rcases h : ParseUint (if c = '+' ∨ c = '-' then cs else c :: cs) 16 with (_ | _) | un
  · simp
  · by_cases hn : c = '-' <;> simp [hn]
  · by_cases hn : c = '-'
    · simp only [hn, not_true_eq_false, false_and, if_false, true_and, if_true, gt_iff_lt,
        Except.ok.injEq, exists_eq_left']
      norm_num
      by_cases hu : 32768 < un
      · simp [hu]
      · simp [hu]; constructor
        · intro h; exact ⟨by omega, h.symm⟩
        · intro h; exact h.2.symm
    · simp only [hn, not_false_eq_true, true_and, false_and, if_false, Except.ok.injEq,
        exists_eq_left']
      norm_num
      by_cases hu : 32768 ≤ un
      · simp [hu]
      · simp [hu]; constructor
        · intro h; exact ⟨by omega, h.symm⟩
        · intro h; exact h.2.symm

theorem ParseInt_16_ok_iff (s : GoString) (v : Int) :
    ParseInt s 16 = .ok v ↔ signedNumeral s = some v ∧ -32768 ≤ v ∧ v ≤ 32767 := by
  cases s with
  | nil => simp [ParseInt, signedNumeral]
  | cons c cs =>
    rw [ParseInt_16_cons_ok_iff]
    simp only [ParseUint_16_ok_iff, signedNumeral]
    by_cases hp : c = '+'
    · subst hp
      simp only [true_or, if_true, show ¬ ('+' = '-') by decide, if_false, List.all_eq_true]
      constructor
      · rintro ⟨un, ⟨h1, h2, h3, _⟩, h4, h5⟩
        subst h3 h5
        exact ⟨by rw [if_pos ⟨h1, h2⟩], by omega, by omega⟩
      · rintro ⟨h1, h2, h3⟩
        split_ifs at h1 with hc
        simp only [Option.some.injEq] at h1
        exact ⟨decimalValue cs, ⟨hc.1, hc.2, rfl, by omega⟩, by omega, h1.symm⟩
    · by_cases hm : c = '-'
      · subst hm
        simp only [or_true, if_true, show ¬ ('-' = '+') by decide, if_false, List.all_eq_true]
        constructor
        · rintro ⟨un, ⟨h1, h2, h3, _⟩, h4, h5⟩
          subst h3 h5
          exact ⟨by rw [if_pos ⟨h1, h2⟩], by omega, by omega⟩
        · rintro ⟨h1, h2, h3⟩
          split_ifs at h1 with hc
          simp only [Option.some.injEq] at h1
          exact ⟨decimalValue cs, ⟨hc.1, hc.2, rfl, by omega⟩, by omega, h1.symm⟩
      · simp only [hp, hm, or_self, if_false, List.all_eq_true]
        constructor
        · rintro ⟨un, ⟨h1, h2, h3, _⟩, h4, h5⟩
          subst h3 h5
          exact ⟨by rw [if_pos h2], by omega, by omega⟩
        · rintro ⟨h1, h2, h3⟩
          split_ifs at h1 with hc
          simp only [Option.some.injEq] at h1
          exact ⟨decimalValue (c :: cs), ⟨by simp, hc, rfl, by omega⟩, by omega, h1.symm⟩

theorem bind_apply {σ α β : Type} (m : Prog σ α) (f : α → Prog σ β) (w : World σ) :
    (m >>= f) w = match m w with
      | (.ok a, w1) => f a w1
      | (.panic v, w1) => (.panic v, w1) := rfl

theorem pure_apply {σ α : Type} (a : α) (w : World σ) :
    (pure a : Prog σ α) w = (.ok a, w) := rfl

theorem mapPort_add_eq {σ : Type} (c : IGD σ) (w : World σ) (line r e p i cl d l : GoString)
    (extra : List GoString)
    (hsplit : Split (TrimSpace line) ' ' = "add".toList :: r :: e :: p :: i :: cl :: d :: l :: extra) :
    mapPort line c w =
      match ParseInt e 16 with
      | .error err => (.panic (.numError err), w)
      | .ok ve =>
        match ParseInt i 16 with
        | .error err => (.panic (.numError err), w)
        | .ok vi =>
          match ParseInt l 16 with
          | .error err => (.panic (.numError err), w)
          | .ok vl =>
            printMappingsTable c
              { device := (c.AddPortMapping (addMapping r p cl d ve vi vl) w.device).2
                trace := w.trace ++ [.AddPortMapping (addMapping r p cl d ve vi vl)] } := by
  simp only [mapPort, hsplit, bind_apply, index, List.get?, pure_apply, if_true, List.drop]
  rcases ParseInt e 16 with err | ve
  · rfl
  · rcases ParseInt i 16 with err | vi
    · rfl
    · rcases ParseInt l 16 with err | vl
      · rfl
      · rfl

theorem mapPort_remove_eq {σ : Type} (c : IGD σ) (w : World σ) (line cmd r e p : GoString)
    (extra : List GoString) (hcmd : cmd ≠ "add".toList)
    (hsplit : Split (TrimSpace line) ' ' = cmd :: r :: e :: p :: extra) :
    mapPort line c w =
      match ParseInt e 16 with
      | .error err => (.panic (.numError err), w)
      | .ok ve =>
        printMappingsTable c
          { device := (c.DeletePortMapping (removeMapping r p ve) w.device).2
            trace := w.trace ++ [.DeletePortMapping (removeMapping r p ve)] } := by
  simp only [mapPort, hsplit, bind_apply, index, List.get?, pure_apply, if_neg hcmd, List.drop]
  rcases ParseInt e 16 with err | ve
  · rfl
  · rfl

theorem foldl_Append (f : PortMapping → List GoString) (pms : List PortMapping) :
    ∀ t : Table, pms.foldl (fun t pm => t.Append (f pm)) t
      = { header := t.header, rows := t.rows ++ pms.map f } := by
  induction pms with
  | nil => intro t; simp
  | cons pm pms ih =>
    intro t
    rw [List.foldl_cons, ih]
    simp [Table.Append]

theorem printMappingsTable_eq {σ : Type} (c : IGD σ) (w : World σ) :
    printMappingsTable c w =
      match c.GetPortMappings w.device with
      | (.error err, s) =>
        (.panic (.clientError err), { device := s, trace := w.trace ++ [.GetPortMappings] })
      | (.ok pms, s) =>
        (.ok (), { device := s
                   trace := w.trace ++ [.GetPortMappings,
                     .Render { header := mappingsHeader, rows := pms.map pmToStringMap }] }) := by
  simp only [printMappingsTable, bind_apply, call, foldl_Append]
  rcases h : c.GetPortMappings w.device with ⟨err | pms, s⟩
  · rfl
  · simp [emit, NewWriter, Table.SetHeader]

theorem addCalls_append (xs ys : List Event) : addCalls (xs ++ ys) = addCalls xs ++ addCalls ys := by
  induction xs with
  | nil => rfl
  | cons e es ih => cases e <;> simp [addCalls, ih]

theorem deleteCalls_append (xs ys : List Event) :
    deleteCalls (xs ++ ys) = deleteCalls xs ++ deleteCalls ys := by
  induction xs with
  | nil => rfl
  | cons e es ih => cases e <;> simp [deleteCalls, ih]

theorem printed_append (xs ys : List Event) : printed (xs ++ ys) = printed xs ++ printed ys := by
  induction xs with
  | nil => rfl
  | cons e es ih => cases e <;> simp [printed, ih]

/-- What `printMappingsTable` adds to the trace: the fetch, and the rendered
table when the fetch succeeded; never an add, a delete or a printed line. -/
theorem printMappingsTable_trace {σ : Type} (c : IGD σ) (w : World σ) :
    ∃ tail, (printMappingsTable c w).2.trace = w.trace ++ tail ∧
      addCalls tail = [] ∧ deleteCalls tail = [] ∧ printed tail = [] := by
  rw [printMappingsTable_eq]
  rcases c.GetPortMappings w.device with ⟨err | pms, s⟩
  · exact ⟨[.GetPortMappings], rfl, rfl, rfl, rfl⟩
  · exact ⟨[.GetPortMappings, .Render _], rfl, rfl, rfl, rfl⟩

theorem printIPTable_eq {σ : Type} (c : IGD σ) (w : World σ) :
    printIPTable c w =
      match c.GetExternalIP w.device with
      | (.error err, s) =>
        (.panic (.clientError err), { device := s, trace := w.trace ++ [.GetExternalIP] })
      | (.ok eip, s) =>
        match c.GetInternalIP s with
        | (.error err, s1) =>
          (.panic (.clientError err),
            { device := s1, trace := w.trace ++ [.GetExternalIP, .GetInternalIP] })
        | (.ok iip, s1) =>
          (.ok (), { device := s1
                     trace := w.trace ++ [.GetExternalIP, .GetInternalIP,
                       .Render { header := ["Type".toList, "IP Address".toList]
                                 rows := [["External".toList, eip], ["Internal".toList, iip]] }] }) := by
  simp only [printIPTable, bind_apply, call]
  rcases h : c.GetExternalIP w.device with ⟨err | eip, s⟩
  · rfl
  · simp only []
    rcases h1 : c.GetInternalIP s with ⟨err | iip, s1⟩
    · simp only [bind_apply, call, h1]
      simp [panic]
    · simp only [bind_apply, call, h1]
      simp [emit, NewWriter, Table.SetHeader, Table.Append]

theorem usage_eq {σ : Type} (w : World σ) :
    (usage : Prog σ Unit) w =
      (.ok (), { device := w.device
                 trace := w.trace ++ [.WriteString "commands:\n".toList, .WriteTree "    ".toList] }) := by
  simp [usage, bind_apply, emit]

theorem mainLoop_cons {σ : Type} (c : IGD σ) (r : ReadResult) (rest : List ReadResult)
    (h1 : r.err ≠ .ErrInterrupt) (h2 : r.err ≠ .EOF) :
    mainLoop c (r :: rest) =
      if TrimSpace r.line = "exit".toList then pure rest
      else if TrimSpace r.line = "list".toList then
        printMappingsTable c >>= fun _ => mainLoop c rest
      else if TrimSpace r.line = "ip".toList then
        printIPTable c >>= fun _ => mainLoop c rest
      else if TrimSpace r.line = "help".toList then
        usage >>= fun _ => mainLoop c rest
      else if HasPrefix (TrimSpace r.line) "map".toList = true then
        mapPort ((TrimSpace r.line).drop 3) c >>= fun _ => mainLoop c rest
      else
        emit (.Println "Command not recognised".toList) >>= fun _ => mainLoop c rest := by
  rw [mainLoop]
  simp only [if_neg h1, if_neg h2]

theorem hasPrefix_map {t : GoString} (h : HasPrefix t "map".toList = true) :
    t ≠ "exit".toList ∧ t ≠ "list".toList ∧ t ≠ "ip".toList ∧ t ≠ "help".toList := by
  refine ⟨?_, ?_, ?_, ?_⟩ <;> (rintro rfl; revert h; decide)

theorem mainLoop_map {σ : Type} (c : IGD σ) (r : ReadResult) (rest : List ReadResult)
    (h1 : r.err ≠ .ErrInterrupt) (h2 : r.err ≠ .EOF)
    (h : HasPrefix (TrimSpace r.line) "map".toList = true) :
    mainLoop c (r :: rest) = (mapPort ((TrimSpace r.line).drop 3) c >>= fun _ => mainLoop c rest) := by
  obtain ⟨a, b, c1, d⟩ := hasPrefix_map h
  rw [mainLoop_cons c r rest h1 h2, if_neg a, if_neg b, if_neg c1, if_neg d, if_pos h]

theorem mainLoop_other {σ : Type} (c : IGD σ) (r : ReadResult) (rest : List ReadResult)
    (h1 : r.err ≠ .ErrInterrupt) (h2 : r.err ≠ .EOF)
    (ha : TrimSpace r.line ≠ "exit".toList) (hb : TrimSpace r.line ≠ "list".toList)
    (hc : TrimSpace r.line ≠ "ip".toList) (hd : TrimSpace r.line ≠ "help".toList)
    (h : HasPrefix (TrimSpace r.line) "map".toList = false) (w : World σ) :
    mainLoop c (r :: rest) w =
      mainLoop c rest
        { device := w.device, trace := w.trace ++ [.Println "Command not recognised".toList] } := by
  rw [mainLoop_cons c r rest h1 h2, if_neg ha, if_neg hb, if_neg hc, if_neg hd, if_neg (by rw [h]; decide)]
  rfl

theorem bind_mainLoop_nil_snd {σ : Type} (c : IGD σ) (m : Prog σ Unit) (w : World σ) :
    ((m >>= fun _ => mainLoop c []) w).2 = (m w).2 := by
  rw [bind_apply]
  rcases m w with ⟨_ | _, w1⟩ <;> rfl

theorem mapPort_add_trace {σ : Type} (c : IGD σ) (w : World σ)
    (line r e p i cl d l : GoString) (extra : List GoString) (ve vi vl : Int)
    (hsplit : Split (TrimSpace line) ' ' = "add".toList :: r :: e :: p :: i :: cl :: d :: l :: extra)
    (he : ParseInt e 16 = .ok ve) (hi : ParseInt i 16 = .ok vi) (hl : ParseInt l 16 = .ok vl) :
    ∃ tail, (mapPort line c w).2.trace
        = w.trace ++ .AddPortMapping (addMapping r p cl d ve vi vl) :: tail ∧
      addCalls tail = [] ∧ deleteCalls tail = [] ∧ printed tail = [] := by
  rw [mapPort_add_eq c w line r e p i cl d l extra hsplit, he, hi, hl]
  obtain ⟨tail, h, ha, hd, hp⟩ := printMappingsTable_trace c
    { device := (c.AddPortMapping (addMapping r p cl d ve vi vl) w.device).2
      trace := w.trace ++ [.AddPortMapping (addMapping r p cl d ve vi vl)] }
  exact ⟨tail, by simpa using h, ha, hd, hp⟩

theorem digitChar_spec (d : Nat) (hd : d < 10) :
    (Char.ofNat (48 + d)).toNat = 48 + d ∧ isDigit (Char.ofNat (48 + d)) = true := by
  interval_cases d <;> decide

theorem decimalFold_append (n : Nat) (xs ys : List Char) :
    decimalFold n (xs ++ ys) = decimalFold (decimalFold n xs) ys := by
  simp [decimalFold, List.foldl_append]

theorem formatBits_spec : ∀ (fuel u : Nat) (acc : List Char), u < 10 ^ fuel → 0 < fuel →
    ∃ ds, formatBits fuel u acc = ds ++ acc ∧ ds ≠ [] ∧ (∀ c ∈ ds, isDigit c = true) ∧
      ∀ n, decimalFold n ds = n * 10 ^ ds.length + u := by
  intro fuel
  induction fuel with
  | zero =>
    intro u acc _ h0
    exact absurd h0 (Nat.lt_irrefl 0)
  | succ fuel ih =>
    intro u acc h _
    by_cases hu : u < 10
    · obtain ⟨h1, h2⟩ := digitChar_spec u hu
      refine ⟨[Char.ofNat (48 + u)], by simp [formatBits, hu], by simp, by simpa using h2, ?_⟩
      intro n
      simp only [decimalFold, List.foldl_cons, List.foldl_nil, h1, List.length_singleton, pow_one]
      omega
    · have hlt : u / 10 < 10 ^ fuel := by
        rw [pow_succ] at h
        exact Nat.div_lt_of_lt_mul (by omega)
      obtain ⟨ds, e, _, hall, hval⟩ := ih (u / 10) (Char.ofNat (48 + u % 10) :: acc) hlt
        (by rcases fuel with _ | k
            · simp only [pow_zero, Nat.lt_one_iff] at hlt; omega
            · exact Nat.succ_pos k)
      obtain ⟨h1, h2⟩ := digitChar_spec (u % 10) (Nat.mod_lt _ (by norm_num))
      refine ⟨ds ++ [Char.ofNat (48 + u % 10)], by simp [formatBits, hu, e], by simp, ?_, ?_⟩
      · intro c hc
        rcases List.mem_append.mp hc with hc | hc
        · exact hall c hc
        · rw [List.mem_singleton.mp hc]; exact h2
      · intro n
        rw [decimalFold_append, hval]
        simp only [decimalFold, List.foldl_cons, List.foldl_nil, h1, List.length_append,
          List.length_singleton, pow_succ]
        have := Nat.div_add_mod u 10
        have e2 : 48 + u % 10 - 48 = u % 10 := by omega
        rw [e2]
        nlinarith [this]

theorem FormatInt_natCast (n : Nat) :
    FormatInt (n : Int) ≠ [] ∧ (∀ c ∈ FormatInt (n : Int), isDigit c = true) ∧
      decimalValue (FormatInt (n : Int)) = n := by
  have hlt : n < 10 ^ (n + 1) :=
    lt_of_lt_of_le (Nat.lt_pow_self (by norm_num) n) (Nat.pow_le_pow_right (by norm_num) (by omega))
  obtain ⟨ds, e, hne, hall, hval⟩ := formatBits_spec (n + 1) n [] hlt (Nat.succ_pos n)
  have hF : FormatInt (n : Int) = ds := by
    simp [FormatInt, e]
  rw [hF]
  refine ⟨hne, hall, ?_⟩
  simpa [decimalValue] using hval 0

theorem dropWhile_eq_self (p : Char → Bool) (s : GoString)
    (h : ∀ c, s.head? = some c → p c = false) : s.dropWhile p = s := by
  cases s with
  | nil => rfl
  | cons a t => simp [List.dropWhile, h a rfl]

theorem trimRightFunc_eq_self (p : Char → Bool) (s : GoString)
    (h : ∀ c, s.getLast? = some c → p c = false) : trimRightFunc p s = s := by
  unfold trimRightFunc
  rw [dropWhile_eq_self p s.reverse (by simpa using h), List.reverse_reverse]

theorem isSpace_of_isDigit {c : Char} (h : isDigit c = true) : isSpace c = false := by
  simp only [isDigit, Bool.and_eq_true, decide_eq_true_eq] at h
  simp only [isSpace, Bool.or_eq_false_iff, Bool.and_eq_false_iff, beq_eq_false_iff_ne,
    decide_eq_false_iff_not, ne_eq]
  omega

theorem getLast?_isDigit {ds : GoString} {n : Nat} (h : isNumeralOf ds n) :
    ∃ c, ds.getLast? = some c ∧ isDigit c = true := by
  obtain ⟨hne, hall, _⟩ := h
  refine ⟨ds.getLast hne, List.getLast?_eq_getLast _ hne, hall _ (List.getLast_mem hne)⟩

theorem signedNumeral_of_isNumeralOf {ds : GoString} {n : Nat} (h : isNumeralOf ds n) :
    signedNumeral ds = some (n : Int) := by
  obtain ⟨hne, hall, hval⟩ := h
  cases ds with
  | nil => exact absurd rfl hne
  | cons c cs =>
    have hc := hall c (List.mem_cons_self _ _)
    have hp : c ≠ '+' := by rintro rfl; revert hc; decide
    have hm : c ≠ '-' := by rintro rfl; revert hc; decide
    simp only [signedNumeral, if_neg hp, if_neg hm]
    rw [if_pos (by simpa using hall), hval]

theorem ParseInt_of_isNumeralOf {ds : GoString} {n : Nat} (h : isNumeralOf ds n)
    (hn : n ≤ 32767) : ParseInt ds 16 = .ok (n : Int) :=
  (ParseInt_16_ok_iff ds n).mpr ⟨signedNumeral_of_isNumeralOf h, by omega, by omega⟩

theorem uint16_natCast {n : Nat} (h : n < 2 ^ 16) : uint16 (n : Int) = n := by
  unfold uint16
  have : ((n : Int) % 2 ^ 16) = (n : Int) := Int.emod_eq_of_lt (by omega) (by exact_mod_cast h)
  rw [this]
  exact Int.toNat_natCast n

theorem uint32_natCast {n : Nat} (h : n < 2 ^ 32) : uint32 (n : Int) = n := by
  unfold uint32
  have : ((n : Int) % 2 ^ 32) = (n : Int) := Int.emod_eq_of_lt (by omega) (by exact_mod_cast h)
  rw [this]
  exact Int.toNat_natCast n

/-- The tokens of an add command made of seven arguments without a space, the
last of them a numeral: trimming changes nothing and the split gives the
tokens back. -/
theorem split_add_command (r e p i cl d l : GoString) (vl : Nat)
    (hsp : ∀ t ∈ [r, e, p, i, cl, d, l], ' ' ∉ t) (hl : isNumeralOf l vl) :
    Split (TrimSpace ("add".toList ++ ' ' :: " ".toList.intercalate [r, e, p, i, cl, d, l])) ' '
      = "add".toList :: r :: e :: p :: i :: cl :: d :: l :: [] := by
  have hline : "add".toList ++ ' ' :: " ".toList.intercalate [r, e, p, i, cl, d, l]
      = [' '].intercalate ["add".toList, r, e, p, i, cl, d, l] := by
    simp [List.intercalate, List.intersperse]
  obtain ⟨c, hc, hdig⟩ := getLast?_isDigit hl
  have hlast : ("add".toList ++ ' ' :: " ".toList.intercalate [r, e, p, i, cl, d, l]).getLast?
      = some c := by
    have : "add".toList ++ ' ' :: " ".toList.intercalate [r, e, p, i, cl, d, l]
        = ("add".toList ++ ' ' :: r ++ ' ' :: e ++ ' ' :: p ++ ' ' :: i ++ ' ' :: cl
            ++ ' ' :: d ++ [' ']) ++ l := by
      simp [List.intercalate, List.intersperse]
    rw [this, List.getLast?_append, hc]
    rfl
  have htrim : TrimSpace ("add".toList ++ ' ' :: " ".toList.intercalate [r, e, p, i, cl, d, l])
      = "add".toList ++ ' ' :: " ".toList.intercalate [r, e, p, i, cl, d, l] := by
    unfold TrimSpace
    rw [dropWhile_eq_self isSpace _ (by intro a ha; cases ha; decide)]
    apply trimRightFunc_eq_self
    intro a ha
    rw [hlast] at ha
    cases ha
    exact isSpace_of_isDigit hdig
  rw [htrim, hline, Split]
  apply List.splitOn_intercalate
  · intro t ht
    rcases List.mem_cons.mp ht with rfl | ht
    · decide
    · exact hsp t ht
  · simp

/-- Within the range `ParseInt` accepts, a well-formed add command reaches the
client with the mapping its tokens describe. -/
theorem mapPort_add_in_range {σ : Type} (c : IGD σ) (w : World σ)
    (r e p i cl d l : GoString) (ve vi vl : Nat)
    (hsp : ∀ t ∈ [r, e, p, i, cl, d, l], ' ' ∉ t)
    (he : isNumeralOf e ve) (hi : isNumeralOf i vi) (hl : isNumeralOf l vl)
    (hve : ve ≤ 32767) (hvi : vi ≤ 32767) (hvl : vl ≤ 32767) :
    mapPort ("add".toList ++ ' ' :: " ".toList.intercalate [r, e, p, i, cl, d, l]) c w =
      printMappingsTable c
        { device := (c.AddPortMapping
            { RemoteHost := Trim r "\"".toList, ExternalPort := ve, Protocol := p,
              InternalPort := vi, InternalClient := cl,
              PortMappingDescription := Trim d "\"".toList, Enabled := true,
              LeaseDuration := vl } w.device).2
          trace := w.trace ++ [.AddPortMapping
            { RemoteHost := Trim r "\"".toList, ExternalPort := ve, Protocol := p,
              InternalPort := vi, InternalClient := cl,
              PortMappingDescription := Trim d "\"".toList, Enabled := true,
              LeaseDuration := vl }] } := by
  rw [mapPort_add_eq c w _ r e p i cl d l [] (split_add_command r e p i cl d l vl hsp hl),
    ParseInt_of_isNumeralOf he hve, ParseInt_of_isNumeralOf hi hvi, ParseInt_of_isNumeralOf hl hvl]
  simp only [addMapping, uint16_natCast (show ve < 2 ^ 16 by norm_num; omega),
    uint16_natCast (show vi < 2 ^ 16 by norm_num; omega),
    uint32_natCast (show vl < 2 ^ 32 by norm_num; omega)]

theorem Trim_quote_eq_self (s : GoString) (h1 : s.head? ≠ some '"') (h2 : s.getLast? ≠ some '"') :
    Trim s "\"".toList = s := by
  have hp : ∀ c : Char, c ≠ '"' → ("\"".toList.contains c) = false := by
    intro c hc
    have hb : (c == '"') = false := beq_eq_false_iff_ne.mpr hc
    simp [List.contains, List.elem, hb]
  unfold Trim
  rw [dropWhile_eq_self _ s (fun c hc => hp c (by rintro rfl; exact h1 hc))]
  exact trimRightFunc_eq_self _ s (fun c hc => hp c (by rintro rfl; exact h2 hc))

theorem space_not_mem_of_digits {ds : GoString} (h : ∀ c ∈ ds, isDigit c = true) : ' ' ∉ ds :=
  fun hmem => absurd (h ' ' hmem) (by decide)

/-- Within the range `ParseInt` accepts, an enabled mapping survives the round
trip through `pmToStringMap` and the add command. -/
theorem roundtrip_in_range {σ : Type} (c : IGD σ) (w : World σ) (pm : PortMapping)
    (hen : pm.Enabled = true)
    (hr : ' ' ∉ pm.RemoteHost) (hp : ' ' ∉ pm.Protocol) (hcl : ' ' ∉ pm.InternalClient)
    (hd : ' ' ∉ pm.PortMappingDescription)
    (hr1 : pm.RemoteHost.head? ≠ some '"') (hr2 : pm.RemoteHost.getLast? ≠ some '"')
    (hd1 : pm.PortMappingDescription.head? ≠ some '"')
    (hd2 : pm.PortMappingDescription.getLast? ≠ some '"')
    (hve : pm.ExternalPort ≤ 32767) (hvi : pm.InternalPort ≤ 32767)
    (hvl : pm.LeaseDuration ≤ 32767) :
    mapPort (addCommandOf pm) c w =
      printMappingsTable c
        { device := (c.AddPortMapping pm w.device).2
          trace := w.trace ++ [.AddPortMapping pm] } := by
  have he := FormatInt_natCast pm.ExternalPort
  have hi := FormatInt_natCast pm.InternalPort
  have hl := FormatInt_natCast pm.LeaseDuration
  have hsp : ∀ t ∈ [pm.RemoteHost, FormatInt pm.ExternalPort, pm.Protocol,
      FormatInt pm.InternalPort, pm.InternalClient, pm.PortMappingDescription,
      FormatInt pm.LeaseDuration], ' ' ∉ t := by
    intro t ht
    simp only [List.mem_cons, List.mem_singleton, List.mem_nil_iff, or_false] at ht
    rcases ht with rfl | rfl | rfl | rfl | rfl | rfl | rfl
    · exact hr
    · exact space_not_mem_of_digits he.2.1
    · exact hp
    · exact space_not_mem_of_digits hi.2.1
    · exact hcl
    · exact hd
    · exact space_not_mem_of_digits hl.2.1
  have h := mapPort_add_in_range c w pm.RemoteHost (FormatInt pm.ExternalPort) pm.Protocol
    (FormatInt pm.InternalPort) pm.InternalClient pm.PortMappingDescription
    (FormatInt pm.LeaseDuration) pm.ExternalPort pm.InternalPort pm.LeaseDuration hsp he hi hl
    hve hvi hvl
  rw [Trim_quote_eq_self _ hr1 hr2, Trim_quote_eq_self _ hd1 hd2] at h
  have hpm : ({ RemoteHost := pm.RemoteHost, ExternalPort := pm.ExternalPort,
                Protocol := pm.Protocol, InternalPort := pm.InternalPort,
                InternalClient := pm.InternalClient,
                PortMappingDescription := pm.PortMappingDescription, Enabled := true,
                LeaseDuration := pm.LeaseDuration } : PortMapping) = pm := by
    cases pm
    simp only [PortMapping.mk.injEq, true_and, and_true]
    exact hen.symm
  rw [hpm] at h
  exact h

/-- An add command with fewer than seven tokens after `add` always ends in a
panic with the world untouched. -/
theorem mapPort_add_few_tokens {σ : Type} (c : IGD σ) (w : World σ) (line : GoString)
    (ts : List GoString) (hsplit : Split (TrimSpace line) ' ' = "add".toList :: ts)
    (hlen : ts.length < 7) : ∃ v, mapPort line c w = (.panic v, w) := by
  simp only [mapPort, hsplit, bind_apply, index, List.get?, pure_apply, if_true, List.drop]
  rcases ts with _ | ⟨r, _ | ⟨e, _ | ⟨p, _ | ⟨i, _ | ⟨cl, _ | ⟨d, _ | ⟨l, ts⟩⟩⟩⟩⟩⟩⟩
  · exact ⟨_, rfl⟩
  · exact ⟨_, rfl⟩
  · exact ⟨_, rfl⟩
  · exact ⟨_, rfl⟩
  · exact ⟨_, rfl⟩
  · simp only [List.get?, orPanic]
    rcases ParseInt e 16 with err | ve
    · exact ⟨_, rfl⟩
    · rcases ParseInt i 16 with err | vi
      · exact ⟨_, rfl⟩
      · exact ⟨_, rfl⟩
  · simp only [List.get?, orPanic]
    rcases ParseInt e 16 with err | ve
    · exact ⟨_, rfl⟩
    · rcases ParseInt i 16 with err | vi
      · exact ⟨_, rfl⟩
      · exact ⟨_, rfl⟩
  · simp at hlen
    omega

/-- A removal with fewer than three tokens after its first word always ends in
a panic with the world untouched. -/
theorem mapPort_remove_few_tokens {σ : Type} (c : IGD σ) (w : World σ) (line cmd : GoString)
    (ts : List GoString) (hcmd : cmd ≠ "add".toList)
    (hsplit : Split (TrimSpace line) ' ' = cmd :: ts)
    (hlen : ts.length < 3) : ∃ v, mapPort line c w = (.panic v, w) := by
  simp only [mapPort, hsplit, bind_apply, index, List.get?, pure_apply, if_neg hcmd, List.drop]
  rcases ts with _ | ⟨r, _ | ⟨e, _ | ⟨p, ts⟩⟩⟩
  · exact ⟨_, rfl⟩
  · exact ⟨_, rfl⟩
  · exact ⟨_, rfl⟩
  · simp only [List.length_cons] at hlen
    omega

/-- Every run of `mapPort` either panics with the world untouched or has all
the tokens its branch reads, with every numeric token accepted. -/
theorem mapPort_panics_or_accepts {σ : Type} (c : IGD σ) (w : World σ) (line : GoString) :
    (∃ v, mapPort line c w = (.panic v, w)) ∨
    (∃ r e p i cl d l extra ve vi vl,
      Split (TrimSpace line) ' ' = "add".toList :: r :: e :: p :: i :: cl :: d :: l :: extra ∧
      ParseInt e 16 = .ok ve ∧ ParseInt i 16 = .ok vi ∧ ParseInt l 16 = .ok vl) ∨
    (∃ cmd r e p extra ve, cmd ≠ "add".toList ∧
      Split (TrimSpace line) ' ' = cmd :: r :: e :: p :: extra ∧ ParseInt e 16 = .ok ve) := by
  rcases hs : Split (TrimSpace line) ' ' with _ | ⟨cmd, ts⟩
  · left
    simp only [mapPort, hs, bind_apply, index, List.get?]
    exact ⟨_, rfl⟩
  · by_cases hcmd : cmd = "add".toList
    · subst hcmd
      by_cases hlen : ts.length < 7
      · exact Or.inl (mapPort_add_few_tokens c w line ts hs hlen)
      · rcases ts with _ | ⟨r, _ | ⟨e, _ | ⟨p, _ | ⟨i, _ | ⟨cl, _ | ⟨d, _ | ⟨l, extra⟩⟩⟩⟩⟩⟩⟩ <;>
          try (exfalso; apply hlen; simp only [List.length_cons, List.length_nil]; omega)
        rw [mapPort_add_eq c w line r e p i cl d l extra hs]
        rcases he : ParseInt e 16 with err | ve
        · exact Or.inl ⟨_, rfl⟩
        · rcases hi : ParseInt i 16 with err | vi
          · exact Or.inl ⟨_, rfl⟩
          · rcases hl : ParseInt l 16 with err | vl
            · exact Or.inl ⟨_, rfl⟩
            · exact Or.inr (Or.inl ⟨r, e, p, i, cl, d, l, extra, ve, vi, vl, rfl, he, hi, hl⟩)
    · by_cases hlen : ts.length < 3
      · exact Or.inl (mapPort_remove_few_tokens c w line cmd ts hcmd hs hlen)
      · rcases ts with _ | ⟨r, _ | ⟨e, _ | ⟨p, extra⟩⟩⟩ <;> try (exfalso; apply hlen; simp only [List.length_cons, List.length_nil]; omega)
        rw [mapPort_remove_eq c w line cmd r e p extra hcmd hs]
        rcases he : ParseInt e 16 with err | ve
        · exact Or.inl ⟨_, rfl⟩
        · exact Or.inr (Or.inr ⟨cmd, r, e, p, extra, ve, hcmd, rfl, he⟩)

/-! ### The claims -/

/-- C1: two add commands whose numbers are 16-bit and 32-bit unsigned values,
a lease of 86400 and an external port of 40000, do not reach the client:
`mapPort` panics on the range error of `ParseInt` with the world untouched. -/
theorem mapPort_add_unsigned_range_panics {σ : Type} (c : IGD σ) (w : World σ) :
    mapPort "add \"1.2.3.4\" 8080 TCP 80 192.168.1.5 \"web\" 86400".toList c w =
      (.panic (.numError
        { Func := "ParseInt".toList, Num := "86400".toList, Err := .ErrRange }), w) ∧
    mapPort "add \"1.2.3.4\" 40000 TCP 80 192.168.1.5 \"web\" 3600".toList c w =
      (.panic (.numError
        { Func := "ParseInt".toList, Num := "40000".toList, Err := .ErrRange }), w) := by
  constructor
  · rw [mapPort_add_eq c w _ "\"1.2.3.4\"".toList "8080".toList "TCP".toList "80".toList
      "192.168.1.5".toList "\"web\"".toList "86400".toList [] (by decide)]
    rw [show ParseInt "8080".toList 16 = .ok 8080 from by decide,
      show ParseInt "80".toList 16 = .ok 80 from by decide,
      show ParseInt "86400".toList 16
        = .error { Func := "ParseInt".toList, Num := "86400".toList, Err := .ErrRange }
        from by decide]
  · rw [mapPort_add_eq c w _ "\"1.2.3.4\"".toList "40000".toList "TCP".toList "80".toList
      "192.168.1.5".toList "\"web\"".toList "3600".toList [] (by decide)]
    rw [show ParseInt "40000".toList 16
        = .error { Func := "ParseInt".toList, Num := "40000".toList, Err := .ErrRange }
        from by decide]

/-- C2: the line `map add "1.2.3.4" 8080 TCP 80 192.168.1.5 "web" 3600`, run
through the command loop with any client in any world, calls the client's add
operation exactly once, with the mapping of the scenario, and never calls
delete. -/
theorem scenario_map_add {σ : Type} (c : IGD σ) (w : World σ) :
    addCalls (mainLoop c
        [{ line := "map add \"1.2.3.4\" 8080 TCP 80 192.168.1.5 \"web\" 3600".toList }] w).2.trace
      = addCalls w.trace ++
          [{ RemoteHost := "1.2.3.4".toList
             ExternalPort := 8080
             Protocol := "TCP".toList
             InternalPort := 80
             InternalClient := "192.168.1.5".toList
             PortMappingDescription := "web".toList
             LeaseDuration := 3600
             Enabled := true }] ∧
    deleteCalls (mainLoop c
        [{ line := "map add \"1.2.3.4\" 8080 TCP 80 192.168.1.5 \"web\" 3600".toList }] w).2.trace
      = deleteCalls w.trace := by
  rw [mainLoop_map c _ [] (by decide) (by decide) (by decide), bind_mainLoop_nil_snd]
  obtain ⟨tail, h, ha, hd, _⟩ := mapPort_add_trace c w
    ((TrimSpace "map add \"1.2.3.4\" 8080 TCP 80 192.168.1.5 \"web\" 3600".toList).drop 3)
    "\"1.2.3.4\"".toList "8080".toList "TCP".toList "80".toList "192.168.1.5".toList
    "\"web\"".toList "3600".toList [] 8080 80 3600 (by decide) (by decide) (by decide) (by decide)
  rw [h]
  have hpm : addMapping "\"1.2.3.4\"".toList "TCP".toList "192.168.1.5".toList "\"web\"".toList
      8080 80 3600 = { RemoteHost := "1.2.3.4".toList
                       ExternalPort := 8080
                       Protocol := "TCP".toList
                       InternalPort := 80
                       InternalClient := "192.168.1.5".toList
                       PortMappingDescription := "web".toList
                       LeaseDuration := 3600
                       Enabled := true } := by decide
  rw [hpm, addCalls_append, deleteCalls_append]
  simp [addCalls, deleteCalls, ha, hd]

/-- C3: the removal `remove "1.2.3.4" -1 TCP`, whose port token has the value
-1, reaches the client's delete operation with the external port 65535. -/
theorem mapPort_remove_negative_port {σ : Type} (c : IGD σ) (w : World σ) :
    signedNumeral "-1".toList = some (-1) ∧
    mapPort "remove \"1.2.3.4\" -1 TCP".toList c w =
      printMappingsTable c
        { device := (c.DeletePortMapping
            { RemoteHost := "1.2.3.4".toList, ExternalPort := 65535, Protocol := "TCP".toList }
            w.device).2
          trace := w.trace ++ [.DeletePortMapping
            { RemoteHost := "1.2.3.4".toList, ExternalPort := 65535, Protocol := "TCP".toList }] } := by
  refine ⟨by decide, ?_⟩
  rw [mapPort_remove_eq c w _ "remove".toList "\"1.2.3.4\"".toList "-1".toList "TCP".toList []
    (by decide) (by decide)]
  rw [show ParseInt "-1".toList 16 = .ok (-1) from by decide]
  have e : removeMapping "\"1.2.3.4\"".toList "TCP".toList (-1)
      = { RemoteHost := "1.2.3.4".toList, ExternalPort := 65535, Protocol := "TCP".toList } := by
    decide
  simp only [e]

/-- C4: a line read without interrupt or end-of-input is dispatched on its
trimmed form alone: "exit" ends the loop at once, leaving the rest of the
input unread and the world untouched; "list" fetches the mappings and renders
them (or panics on a failed fetch); "ip" fetches both addresses and renders
them; "help" writes the command tree; a line with prefix "map" hands what
follows those three characters to `mapPort`; any other line prints
"Command not recognised", calls no client operation, and the loop goes on. -/
theorem command_loop_dispatch {σ : Type} (c : IGD σ) (r : ReadResult) (rest : List ReadResult)
    (h1 : r.err ≠ .ErrInterrupt) (h2 : r.err ≠ .EOF) :
    (TrimSpace r.line = "exit".toList → ∀ w, mainLoop c (r :: rest) w = (.ok rest, w)) ∧
    (TrimSpace r.line = "list".toList → ∀ w, mainLoop c (r :: rest) w =
      match c.GetPortMappings w.device with
      | (.error err, s) =>
        (.panic (.clientError err), { device := s, trace := w.trace ++ [.GetPortMappings] })
      | (.ok pms, s) =>
        mainLoop c rest
          { device := s
            trace := w.trace ++ [.GetPortMappings,
              .Render { header := mappingsHeader, rows := pms.map pmToStringMap }] }) ∧
    (TrimSpace r.line = "ip".toList → ∀ w, mainLoop c (r :: rest) w =
      match c.GetExternalIP w.device with
      | (.error err, s) =>
        (.panic (.clientError err), { device := s, trace := w.trace ++ [.GetExternalIP] })
      | (.ok eip, s) =>
        match c.GetInternalIP s with
        | (.error err, s1) =>
          (.panic (.clientError err),
            { device := s1, trace := w.trace ++ [.GetExternalIP, .GetInternalIP] })
        | (.ok iip, s1) =>
          mainLoop c rest
            { device := s1
              trace := w.trace ++ [.GetExternalIP, .GetInternalIP,
                .Render { header := ["Type".toList, "IP Address".toList]
                          rows := [["External".toList, eip], ["Internal".toList, iip]] }] }) ∧
    (TrimSpace r.line = "help".toList → ∀ w, mainLoop c (r :: rest) w =
      mainLoop c rest
        { device := w.device
          trace := w.trace ++ [.WriteString "commands:\n".toList, .WriteTree "    ".toList] }) ∧
    (HasPrefix (TrimSpace r.line) "map".toList = true →
      mainLoop c (r :: rest) =
        (mapPort ((TrimSpace r.line).drop 3) c >>= fun _ => mainLoop c rest)) ∧
    (TrimSpace r.line ≠ "exit".toList → TrimSpace r.line ≠ "list".toList →
      TrimSpace r.line ≠ "ip".toList → TrimSpace r.line ≠ "help".toList →
      HasPrefix (TrimSpace r.line) "map".toList = false →
      ∀ w, mainLoop c (r :: rest) w =
        mainLoop c rest
          { device := w.device, trace := w.trace ++ [.Println "Command not recognised".toList] }) ∧
    (∀ r2 : ReadResult, r2.err ≠ .ErrInterrupt → r2.err ≠ .EOF →
      TrimSpace r2.line = TrimSpace r.line → mainLoop c (r2 :: rest) = mainLoop c (r :: rest)) := by
  refine ⟨?_, ?_, ?_, ?_, ?_, ?_, ?_⟩
  · intro h w
    rw [mainLoop_cons c r rest h1 h2, if_pos h]
    rfl
  · intro h w
    rw [mainLoop_cons c r rest h1 h2, h, if_neg (by decide), if_pos rfl, bind_apply,
      printMappingsTable_eq]
    rcases c.GetPortMappings w.device with ⟨err | pms, s⟩ <;> rfl
  · intro h w
    rw [mainLoop_cons c r rest h1 h2, h, if_neg (by decide), if_neg (by decide), if_pos rfl,
      bind_apply, printIPTable_eq]
    rcases c.GetExternalIP w.device with ⟨err | eip, s⟩
    · rfl
    · simp only []
      rcases c.GetInternalIP s with ⟨err | iip, s1⟩ <;> rfl
  · intro h w
    rw [mainLoop_cons c r rest h1 h2, h, if_neg (by decide), if_neg (by decide),
      if_neg (by decide), if_pos rfl, bind_apply, usage_eq]
  · exact mainLoop_map c r rest h1 h2
  · exact mainLoop_other c r rest h1 h2
  · intro r2 g1 g2 he
    rw [mainLoop_cons c r rest h1 h2, mainLoop_cons c r2 rest g1 g2, he]

/-- Witness of C4: the line " exit " followed by an unread "list". -/
theorem command_loop_dispatch_witness :
    (({ line := " exit ".toList } : ReadResult).err ≠ .ErrInterrupt ∧
      ({ line := " exit ".toList } : ReadResult).err ≠ .EOF) ∧
    mainLoop homeClient [{ line := " exit ".toList }, { line := "list".toList }]
        { device := (), trace := [] }
      = (.ok [{ line := "list".toList }], { device := (), trace := [] }) :=
  ⟨⟨by decide, by decide⟩,
    (command_loop_dispatch homeClient { line := " exit ".toList } [{ line := "list".toList }]
      (by decide) (by decide)).1 (by decide) { device := (), trace := [] }⟩

/-- C5: the line `map purge "1.2.3.4" 8080 TCP` is no command of the grammar,
yet the command loop calls the client's delete operation for it and prints
nothing. -/
theorem map_purge_deletes :
    inGrammar "map purge \"1.2.3.4\" 8080 TCP".toList = false ∧
    deleteCalls (mainLoop homeClient [{ line := "map purge \"1.2.3.4\" 8080 TCP".toList }]
        { device := (), trace := [] }).2.trace
      = [{ RemoteHost := "1.2.3.4".toList, ExternalPort := 8080, Protocol := "TCP".toList }] ∧
    printed (mainLoop homeClient [{ line := "map purge \"1.2.3.4\" 8080 TCP".toList }]
        { device := (), trace := [] }).2.trace = [] := by
  decide

/-- C6: the add command `add "1.2.3.4" 8080 TCP`, with three tokens after
`add`, ends in the run-time panic "index out of range [4] with length 3" with
the world untouched: the client is not called and nothing is reported. -/
theorem mapPort_add_three_tokens_panics {σ : Type} (c : IGD σ) (w : World σ) :
    mapPort "add \"1.2.3.4\" 8080 TCP".toList c w = (.panic (.indexOutOfRange 4 3), w) := by
  have hsplit : Split (TrimSpace "add \"1.2.3.4\" 8080 TCP".toList) ' '
      = ["add".toList, "\"1.2.3.4\"".toList, "8080".toList, "TCP".toList] := by decide
  simp only [mapPort, hsplit, bind_apply, index, List.get?, pure_apply, if_true, List.drop]
  rfl

/-- C7: with a client whose add operation fails, the command
`map add "1.2.3.4" 8080 TCP 80 192.168.1.5 "web" 3600` does not abort: the
loop goes on to fetch and render the mapping table and ends normally. -/
theorem failed_add_still_prints_table :
    (refusingClient.AddPortMapping
        { RemoteHost := "1.2.3.4".toList, ExternalPort := 8080, Protocol := "TCP".toList,
          InternalPort := 80, InternalClient := "192.168.1.5".toList,
          PortMappingDescription := "web".toList, LeaseDuration := 3600, Enabled := true } ()).1
      = some "ConflictInMappingEntry".toList ∧
    mainLoop refusingClient
        [{ line := "map add \"1.2.3.4\" 8080 TCP 80 192.168.1.5 \"web\" 3600".toList }]
        { device := (), trace := [] } =
      (.ok [], { device := ()
                 trace := [.AddPortMapping
                     { RemoteHost := "1.2.3.4".toList, ExternalPort := 8080,
                       Protocol := "TCP".toList, InternalPort := 80,
                       InternalClient := "192.168.1.5".toList,
                       PortMappingDescription := "web".toList, LeaseDuration := 3600,
                       Enabled := true },
                   .GetPortMappings,
                   .Render { header := mappingsHeader, rows := [] }] }) := by
  decide

/-- C8: the mapping with external port 40000 does not survive the round trip:
the add command made of its `pmToStringMap` cells makes `mapPort` panic on the
range error of `ParseInt` with the world untouched. -/
theorem roundtrip_port_40000_panics {σ : Type} (c : IGD σ) (w : World σ) :
    addCommandOf
        { RemoteHost := "1.2.3.4".toList, ExternalPort := 40000, Protocol := "TCP".toList,
          InternalPort := 80, InternalClient := "192.168.1.5".toList,
          PortMappingDescription := "web".toList, LeaseDuration := 3600, Enabled := true }
      = "add 1.2.3.4 40000 TCP 80 192.168.1.5 web 3600".toList ∧
    mapPort (addCommandOf
        { RemoteHost := "1.2.3.4".toList, ExternalPort := 40000, Protocol := "TCP".toList,
          InternalPort := 80, InternalClient := "192.168.1.5".toList,
          PortMappingDescription := "web".toList, LeaseDuration := 3600, Enabled := true }) c w =
      (.panic (.numError
        { Func := "ParseInt".toList, Num := "40000".toList, Err := .ErrRange }), w) := by
  have h : addCommandOf
        { RemoteHost := "1.2.3.4".toList, ExternalPort := 40000, Protocol := "TCP".toList,
          InternalPort := 80, InternalClient := "192.168.1.5".toList,
          PortMappingDescription := "web".toList, LeaseDuration := 3600, Enabled := true }
      = "add 1.2.3.4 40000 TCP 80 192.168.1.5 web 3600".toList := by decide
  refine ⟨h, ?_⟩
  rw [h, mapPort_add_eq c w _ "1.2.3.4".toList "40000".toList "TCP".toList "80".toList
      "192.168.1.5".toList "web".toList "3600".toList [] (by decide)]
  rw [show ParseInt "40000".toList 16
      = .error { Func := "ParseInt".toList, Num := "40000".toList, Err := .ErrRange }
      from by decide]

/-- C9: when the client returns the mappings `pms`, `printMappingsTable`
renders a table whose rows are exactly `pmToStringMap` of each mapping, one per
mapping and in the client's order, whatever the client and the world; every
row has seven cells: remote host, external port, protocol, internal port,
internal client, description and lease, the three numbers as their base-10
numerals. -/
theorem mappings_table_rows {σ : Type} (c : IGD σ) (w : World σ) (pms : List PortMapping)
    (s : σ) (h : c.GetPortMappings w.device = (.ok pms, s)) :
    printMappingsTable c w =
      (.ok (), { device := s
                 trace := w.trace ++ [.GetPortMappings,
                   .Render { header := mappingsHeader, rows := pms.map pmToStringMap }] }) ∧
    (pms.map pmToStringMap).length = pms.length ∧
    ∀ pm : PortMapping, (pmToStringMap pm).length = 7 ∧
      ∃ e i l : GoString,
        pmToStringMap pm =
          [pm.RemoteHost, e, pm.Protocol, i, pm.InternalClient, pm.PortMappingDescription, l] ∧
        isNumeralOf e pm.ExternalPort ∧ isNumeralOf i pm.InternalPort ∧
        isNumeralOf l pm.LeaseDuration := by
  refine ⟨?_, List.length_map _ _, ?_⟩
  · rw [printMappingsTable_eq, h]
  · intro pm
    exact ⟨rfl, _, _, _, rfl, FormatInt_natCast _, FormatInt_natCast _, FormatInt_natCast _⟩

/-- Witness of C9: the client that holds one mapping, in the empty world. -/
theorem mappings_table_rows_witness :
    homeClient.GetPortMappings () =
      (.ok [{ ExternalPort := 2222, Protocol := "TCP".toList, InternalPort := 22,
              InternalClient := "192.168.1.10".toList, PortMappingDescription := "ssh".toList,
              Enabled := true }], ()) ∧
    printMappingsTable homeClient { device := (), trace := [] } =
      (.ok (), { device := ()
                 trace := [.GetPortMappings,
                   .Render { header := mappingsHeader
                             rows := [["".toList, "2222".toList, "TCP".toList, "22".toList,
                               "192.168.1.10".toList, "ssh".toList, "0".toList]] }] }) :=
  ⟨rfl, (mappings_table_rows homeClient { device := (), trace := [] } _ () rfl).1⟩

/-- C10: `mapPort` accepts a port or lease token exactly when it is an
optionally signed base-10 numeral with a value in [-32768, 32767]; with all
three tokens of an add (the one of a removal) accepted, the client is called
with the ports reduced modulo 2^16 and the lease modulo 2^32; with a token not
accepted the process panics with the world untouched, so before any client
call; a run that does not panic that way has every token its branch reads,
each numeric one accepted.  Hence a numeral above 32767 is rejected, and `-1` is stored as 65535. -/
theorem numeric_range_accepted :
    (∀ (s : GoString) (v : Int),
      ParseInt s 16 = .ok v ↔ signedNumeral s = some v ∧ -32768 ≤ v ∧ v ≤ 32767) ∧
    (∀ {σ : Type} (c : IGD σ) (w : World σ) (line r e p i cl d l : GoString)
      (extra : List GoString),
      Split (TrimSpace line) ' ' = "add".toList :: r :: e :: p :: i :: cl :: d :: l :: extra →
      (∀ ve vi vl : Int, ParseInt e 16 = .ok ve → ParseInt i 16 = .ok vi →
        ParseInt l 16 = .ok vl →
        mapPort line c w =
          printMappingsTable c
            { device := (c.AddPortMapping
                { RemoteHost := Trim r "\"".toList
                  ExternalPort := (ve % 2 ^ 16).toNat
                  Protocol := p
                  InternalPort := (vi % 2 ^ 16).toNat
                  InternalClient := cl
                  PortMappingDescription := Trim d "\"".toList
                  Enabled := true
                  LeaseDuration := (vl % 2 ^ 32).toNat } w.device).2
              trace := w.trace ++ [.AddPortMapping
                { RemoteHost := Trim r "\"".toList
                  ExternalPort := (ve % 2 ^ 16).toNat
                  Protocol := p
                  InternalPort := (vi % 2 ^ 16).toNat
                  InternalClient := cl
                  PortMappingDescription := Trim d "\"".toList
                  Enabled := true
                  LeaseDuration := (vl % 2 ^ 32).toNat }] }) ∧
      (((∀ v, ParseInt e 16 ≠ .ok v) ∨ (∀ v, ParseInt i 16 ≠ .ok v) ∨
          (∀ v, ParseInt l 16 ≠ .ok v)) →
        ∃ err, mapPort line c w = (.panic (.numError err), w))) ∧
    (∀ {σ : Type} (c : IGD σ) (w : World σ) (line cmd r e p : GoString)
      (extra : List GoString), cmd ≠ "add".toList →
      Split (TrimSpace line) ' ' = cmd :: r :: e :: p :: extra →
      (∀ ve : Int, ParseInt e 16 = .ok ve →
        mapPort line c w =
          printMappingsTable c
            { device := (c.DeletePortMapping
                { RemoteHost := Trim r "\"".toList
                  ExternalPort := (ve % 2 ^ 16).toNat
                  Protocol := p } w.device).2
              trace := w.trace ++ [.DeletePortMapping
                { RemoteHost := Trim r "\"".toList
                  ExternalPort := (ve % 2 ^ 16).toNat
                  Protocol := p }] }) ∧
      ((∀ v, ParseInt e 16 ≠ .ok v) →
        ∃ err, mapPort line c w = (.panic (.numError err), w))) ∧
    (∀ {σ : Type} (c : IGD σ) (w : World σ) (line : GoString),
      (∃ v, mapPort line c w = (.panic v, w)) ∨
      (∃ r e p i cl d l extra ve vi vl,
        Split (TrimSpace line) ' ' = "add".toList :: r :: e :: p :: i :: cl :: d :: l :: extra ∧
        ParseInt e 16 = .ok ve ∧ ParseInt i 16 = .ok vi ∧ ParseInt l 16 = .ok vl) ∨
      (∃ cmd r e p extra ve, cmd ≠ "add".toList ∧
        Split (TrimSpace line) ' ' = cmd :: r :: e :: p :: extra ∧ ParseInt e 16 = .ok ve)) ∧
    (∀ (s : GoString) (v : Int), signedNumeral s = some v → 32767 < v →
      ∀ u, ParseInt s 16 ≠ .ok u) ∧
    (ParseInt "-1".toList 16 = .ok (-1) ∧ uint16 (-1) = 65535) := by
  refine ⟨ParseInt_16_ok_iff, ?_, ?_, fun c w line => mapPort_panics_or_accepts c w line, ?_,
    by decide, by decide⟩
  · intro σ c w line r e p i cl d l extra hsplit
    rw [mapPort_add_eq c w line r e p i cl d l extra hsplit]
    constructor
    · intro ve vi vl he hi hl
      rw [he, hi, hl]
      rfl
    · intro h
      rcases he : ParseInt e 16 with err | ve
      · exact ⟨err, rfl⟩
      · rcases hi : ParseInt i 16 with err | vi
        · exact ⟨err, rfl⟩
        · rcases hl : ParseInt l 16 with err | vl
          · exact ⟨err, rfl⟩
          · rcases h with h | h | h
            · exact absurd he (h ve)
            · exact absurd hi (h vi)
            · exact absurd hl (h vl)
  · intro σ c w line cmd r e p extra hcmd hsplit
    rw [mapPort_remove_eq c w line cmd r e p extra hcmd hsplit]
    constructor
    · intro ve he
      rw [he]
      rfl
    · intro h
      rcases he : ParseInt e 16 with err | ve
      · exact ⟨err, rfl⟩
      · exact absurd he (h ve)
  · intro s v hs hv u hu
    obtain ⟨h1, _, h3⟩ := (ParseInt_16_ok_iff s u).mp hu
    rw [hs] at h1
    simp only [Option.some.injEq] at h1
    omega

/-- Witness of C10: the removal `remove "1.2.3.4" -1 TCP`, whose port token is
accepted and stored as 65535, and the add with the port token 40000, which is
not accepted. -/
theorem numeric_range_accepted_witness :
    (Split (TrimSpace "remove \"1.2.3.4\" -1 TCP".toList) ' '
        = ["remove".toList, "\"1.2.3.4\"".toList, "-1".toList, "TCP".toList] ∧
      ParseInt "-1".toList 16 = .ok (-1)) ∧
    mapPort "remove \"1.2.3.4\" -1 TCP".toList homeClient { device := (), trace := [] } =
      printMappingsTable homeClient
        { device := ()
          trace := [.DeletePortMapping
            { RemoteHost := "1.2.3.4".toList, ExternalPort := 65535, Protocol := "TCP".toList }] } ∧
    ((∀ v, ParseInt "40000".toList 16 ≠ .ok v) ∧
      ∃ err, mapPort "add \"1.2.3.4\" 40000 TCP 80 192.168.1.5 \"web\" 3600".toList homeClient
          { device := (), trace := [] } =
        (.panic (.numError err), { device := (), trace := [] })) := by
  have h40000 : ∀ v, ParseInt "40000".toList 16 ≠ .ok v := by
    intro v
    rw [show ParseInt "40000".toList 16
      = .error { Func := "ParseInt".toList, Num := "40000".toList, Err := .ErrRange }
      from by decide]
    exact fun h => Except.noConfusion h
  refine ⟨⟨by decide, by decide⟩, ?_, h40000, ?_⟩
  · have h := (numeric_range_accepted.2.2.1 homeClient { device := (), trace := [] }
      "remove \"1.2.3.4\" -1 TCP".toList "remove".toList "\"1.2.3.4\"".toList "-1".toList
      "TCP".toList [] (by decide) (by decide)).1 (-1) (by decide)
    have e : ({ RemoteHost := Trim "\"1.2.3.4\"".toList "\"".toList
                ExternalPort := ((-1 : Int) % 2 ^ 16).toNat
                Protocol := "TCP".toList } : PortMapping)
        = { RemoteHost := "1.2.3.4".toList, ExternalPort := 65535, Protocol := "TCP".toList } := by
      decide
    rw [e] at h
    exact h
  · exact (numeric_range_accepted.2.1 homeClient { device := (), trace := [] }
      "add \"1.2.3.4\" 40000 TCP 80 192.168.1.5 \"web\" 3600".toList
      "\"1.2.3.4\"".toList "40000".toList "TCP".toList "80".toList "192.168.1.5".toList
      "\"web\"".toList "3600".toList [] (by decide)).2 (Or.inl h40000)
end SUP
